import Mathlib

/-!
Verification of the repmark layout engine (`orepmark.py`).

The development shallowly embeds the core layout routine
`draw_block_stacked_on_space` (lines 115-185 of the source), together with
the padding computation of `export_and_draw_bounding_boxes` (lines 230-238).
Text measurement and glyph drawing are external capabilities in the source
(PIL's `draw.textbbox` / `draw.textlength` / `font.size`); they are modelled
as an abstract `Measure` record. Pixel coordinates and measured widths are
modelled as rationals (the source mixes Python ints and floats; the layout
arithmetic itself is exact on the values it is given). Python's `int()`
conversion truncates toward zero and is modelled by `pyTrunc`.
-/

namespace Repmark

/-- An axis-aligned bounding box `(x0, y0, x1, y1)`, as returned by the
text-measurement capability (`draw.textbbox`). -/
structure BBox where
  x0 : ℚ
  y0 : ℚ
  x1 : ℚ
  y1 : ℚ
deriving DecidableEq, Repr

/-- The true geometric union of two axis-aligned rectangles (NOT what the
source computes in the inline branch; used to state that difference). -/
def bboxUnion (a b : BBox) : BBox :=
  ⟨min a.x0 b.x0, min a.y0 b.y0, max a.x1 b.x1, max a.y1 b.y1⟩

/-- The external text-measurement capability: `font.size`,
`draw.textlength(s, font)` and `draw.textbbox((x, y), s, font)`. -/
structure Measure where
  fontSize : ℤ
  textlength : List Char → ℚ
  textbbox : ℚ → ℚ → List Char → BBox

/-- A simple concrete measure for evaluating scenarios: every character is
`cw` pixels wide, a rendered string's box starts exactly at its origin and
is `fontSize` pixels tall. -/
def tightMeasure (cw : ℚ) (fs : ℤ) : Measure where
  fontSize := fs
  textlength := fun s => cw * s.length
  textbbox := fun x y s => ⟨x, y, x + cw * s.length, y + fs⟩

/-- A concrete measure whose box height depends on the string length, so the
top and bottom boxes of an inline entry need not share a vertical extent. -/
def unevenMeasure : Measure where
  fontSize := 28
  textlength := fun s => s.length
  textbbox := fun x y s => ⟨x, y, x + s.length, y + s.length⟩

/-- One element of the `lines` argument of `draw_block_stacked_on_space`:
a Python string, a dict (with optional `value` and `stacked` keys; a
`stacked` value of `None` is indistinguishable from an absent key, and any
other value is observed only through `bool(...)`), or any other Python
value, observed only through its `str(...)` form (source lines 138-143). -/
inductive Entry where
  | str (s : List Char)
  | dict (value : Option (List Char)) (stacked : Option Bool)
  | other (strForm : List Char)
deriving DecidableEq, Repr

/-- `line` as computed at source lines 138-142: `entry.get("value", "")`
for a dict, `str(entry)` otherwise. -/
def Entry.lineText : Entry → List Char
  | .str s => s
  | .dict v _ => v.getD []
  | .other s => s

/-- `stacked_flag` as computed at source lines 138-143:
`entry.get("stacked", None)` for a dict, `None` otherwise. -/
def Entry.stackedFlag : Entry → Option Bool
  | .dict _ f => f
  | _ => none

/-- Source lines 145-148: `top, bottom = line.split(" ", 1)` when `" " in
line`, else `top, bottom = line, ""`. The split is on the first literal
space character; characters after it (including further spaces) stay in
`bottom`. -/
def splitFirstSpace : List Char → List Char × List Char
  | [] => ([], [])
  | c :: rest =>
      if c = ' ' then ([], rest)
      else
        let p := splitFirstSpace rest
        (c :: p.1, p.2)

/-- Source line 150: `has_space = bool(bottom)`. -/
def hasSpace (line : List Char) : Bool :=
  !(splitFirstSpace line).2.isEmpty

/-- Source lines 151-154: `do_stack = force_stack_default and has_space` when
the flag is absent, else `bool(stacked_flag) and has_space`. -/
def doStack (forceStackDefault : Bool) (stackedFlag : Option Bool) (hs : Bool) : Bool :=
  match stackedFlag with
  | none => forceStackDefault && hs
  | some b => b && hs

/-- Python `int()` applied to a rational: truncation toward zero. -/
def pyTrunc (q : ℚ) : ℤ :=
  if 0 ≤ q then ⌊q⌋ else ⌈q⌉

/-- The scalar parameters of `draw_block_stacked_on_space`:
`block_spacing`, `inner_stack_gap`, `force_stack_default`,
`inline_gap_factor`. -/
structure LayoutParams where
  blockSpacing : ℤ
  innerStackGap : ℤ
  forceStackDefault : Bool
  inlineGapFactor : ℚ
deriving Repr

/-- Which of the three branches of the loop body an entry took. -/
inductive Branch where
  | stacked
  | inline
  | single
deriving DecidableEq, Repr

/-- The observable effect of one iteration of the loop of
`draw_block_stacked_on_space` on one entry: the emitted result tuple
`(line, bboxTop, emittedBottom)`, the raw bottom box as measured
(`emittedBottom` is the combined box in the inline branch, the raw box
otherwise), the branch taken, and the updated cursor `y`. -/
structure StepOut where
  lineText : List Char
  branch : Branch
  bboxTop : BBox
  bboxBottomRaw : BBox
  emittedBottom : BBox
  newY : ℚ
deriving DecidableEq, Repr

/-- The body of the `for entry in lines` loop of
`draw_block_stacked_on_space` (source lines 137-184). -/
def processEntry (m : Measure) (p : LayoutParams) (x y : ℚ) (entry : Entry) : StepOut :=
  let line := entry.lineText
  let sp := splitFirstSpace line
  let top := sp.1
  let bottom := sp.2
  let hs := hasSpace line
  let ds := doStack p.forceStackDefault entry.stackedFlag hs
  if ds then
    let bboxTop := m.textbbox x y top
    let y2 := y + m.fontSize + p.innerStackGap
    let bboxBottom := m.textbbox x y2 bottom
    { lineText := line, branch := .stacked, bboxTop := bboxTop,
      bboxBottomRaw := bboxBottom, emittedBottom := bboxBottom,
      newY := y + m.fontSize * 2 + p.innerStackGap + p.blockSpacing }
  else if hs then
    let pw := m.textlength top
    let gap := pyTrunc (pw * p.inlineGapFactor)
    let bboxTop := m.textbbox x y top
    let x2 := x + pw + gap
    let bboxBottom := m.textbbox x2 y bottom
    let combined : BBox := ⟨bboxTop.x0, bboxTop.y0, bboxBottom.x1, bboxBottom.y1⟩
    { lineText := line, branch := .inline, bboxTop := bboxTop,
      bboxBottomRaw := bboxBottom, emittedBottom := combined,
      newY := y + m.fontSize + p.blockSpacing }
  else
    let bbox := m.textbbox x y line
    { lineText := line, branch := .single, bboxTop := bbox,
      bboxBottomRaw := bbox, emittedBottom := bbox,
      newY := y + m.fontSize + p.blockSpacing }

/-- The loop of `draw_block_stacked_on_space`, threading the cursor `y` and
accumulating the `results` list; also returns the final cursor. -/
def drawLoop (m : Measure) (p : LayoutParams) (x : ℚ) :
    ℚ → List Entry → List (List Char × BBox × BBox) × ℚ
  | y, [] => ([], y)
  | y, e :: es =>
      let o := processEntry m p x y e
      let r := drawLoop m p x o.newY es
      ((o.lineText, o.bboxTop, o.emittedBottom) :: r.1, r.2)

/-- `draw_block_stacked_on_space` (source lines 115-185): returns the
`results` list of `(line, bbox_top, bbox_bottom)` tuples. -/
def draw_block_stacked_on_space (m : Measure) (p : LayoutParams)
    (start : ℚ × ℚ) (lines : List Entry) : List (List Char × BBox × BBox) :=
  (drawLoop m p start.1 start.2 lines).1

/-- The sequence of cursor `y` values at which successive entries start
drawing, in one pass. -/
def entryOrigins (m : Measure) (p : LayoutParams) (x : ℚ) :
    ℚ → List Entry → List ℚ
  | _, [] => []
  | y, e :: es => y :: entryOrigins m p x (processEntry m p x y e).newY es

/-- Source line 233/234: `max(2, int(font_size * 0.1))`. -/
def autoPadding (fontSize : ℤ) : ℤ :=
  max 2 (pyTrunc ((fontSize : ℚ) * (1 / 10)))

/-- Source lines 232-237 of `export_and_draw_bounding_boxes`: the pair
`(side_padding, end_padding)`; auto-scaled per font when no override is
given, otherwise both equal to the override. -/
def exportPaddings (sideFontSize endFontSize : ℤ) (bboxPadding : Option ℤ) : ℤ × ℤ :=
  match bboxPadding with
  | none => (autoPadding sideFontSize, autoPadding endFontSize)
  | some pad => (pad, pad)

/-- Source lines 240-242: `pad_bbox`. -/
def pad_bbox (b : BBox) (pad : ℤ) : BBox :=
  ⟨b.x0 - pad, b.y0 - pad, b.x1 + pad, b.y1 + pad⟩

/- ## Helper lemmas -/

theorem doStack_of_not_hasSpace (d : Bool) (f : Option Bool) :
    doStack d f false = false := by
  cases f <;> simp [doStack]

theorem processEntry_branch (m : Measure) (p : LayoutParams) (x y : ℚ) (e : Entry) :
    (processEntry m p x y e).branch =
      (if doStack p.forceStackDefault e.stackedFlag (hasSpace e.lineText) then Branch.stacked
       else if hasSpace e.lineText then Branch.inline else Branch.single) := by
  cases hhs : hasSpace e.lineText with
  | false => simp [processEntry, hhs, doStack_of_not_hasSpace]
  | true =>
    cases hds : doStack p.forceStackDefault e.stackedFlag true with
    | false => simp [processEntry, hhs, hds]
    | true => simp [processEntry, hhs, hds]

theorem processEntry_stacked_eq (m : Measure) (p : LayoutParams) (x y : ℚ) (e : Entry)
    (h : doStack p.forceStackDefault e.stackedFlag (hasSpace e.lineText) = true) :
    processEntry m p x y e =
      { lineText := e.lineText, branch := .stacked,
        bboxTop := m.textbbox x y (splitFirstSpace e.lineText).1,
        bboxBottomRaw := m.textbbox x (y + m.fontSize + p.innerStackGap) (splitFirstSpace e.lineText).2,
        emittedBottom := m.textbbox x (y + m.fontSize + p.innerStackGap) (splitFirstSpace e.lineText).2,
        newY := y + m.fontSize * 2 + p.innerStackGap + p.blockSpacing } := by
  simp [processEntry, h]

theorem processEntry_inline_eq (m : Measure) (p : LayoutParams) (x y : ℚ) (e : Entry)
    (hds : doStack p.forceStackDefault e.stackedFlag (hasSpace e.lineText) = false)
    (hhs : hasSpace e.lineText = true) :
    processEntry m p x y e =
      { lineText := e.lineText, branch := .inline,
        bboxTop := m.textbbox x y (splitFirstSpace e.lineText).1,
        bboxBottomRaw := m.textbbox
          (x + m.textlength (splitFirstSpace e.lineText).1
             + pyTrunc (m.textlength (splitFirstSpace e.lineText).1 * p.inlineGapFactor)) y
          (splitFirstSpace e.lineText).2,
        emittedBottom :=
          ⟨(m.textbbox x y (splitFirstSpace e.lineText).1).x0,
           (m.textbbox x y (splitFirstSpace e.lineText).1).y0,
           (m.textbbox
             (x + m.textlength (splitFirstSpace e.lineText).1
                + pyTrunc (m.textlength (splitFirstSpace e.lineText).1 * p.inlineGapFactor)) y
             (splitFirstSpace e.lineText).2).x1,
           (m.textbbox
             (x + m.textlength (splitFirstSpace e.lineText).1
                + pyTrunc (m.textlength (splitFirstSpace e.lineText).1 * p.inlineGapFactor)) y
             (splitFirstSpace e.lineText).2).y1⟩,
        newY := y + m.fontSize + p.blockSpacing } := by
  rw [hhs] at hds
  simp [processEntry, hds, hhs]

theorem processEntry_single_eq (m : Measure) (p : LayoutParams) (x y : ℚ) (e : Entry)
    (h : hasSpace e.lineText = false) :
    processEntry m p x y e =
      { lineText := e.lineText, branch := .single,
        bboxTop := m.textbbox x y e.lineText,
        bboxBottomRaw := m.textbbox x y e.lineText,
        emittedBottom := m.textbbox x y e.lineText,
        newY := y + m.fontSize + p.blockSpacing } := by
  simp [processEntry, h, doStack_of_not_hasSpace]

theorem branch_inline_iff (m : Measure) (p : LayoutParams) (x y : ℚ) (e : Entry) :
    (processEntry m p x y e).branch = Branch.inline ↔
      (doStack p.forceStackDefault e.stackedFlag (hasSpace e.lineText) = false ∧
        hasSpace e.lineText = true) := by
  rw [processEntry_branch]
  rcases hds : doStack p.forceStackDefault e.stackedFlag (hasSpace e.lineText) <;>
    rcases hhs : hasSpace e.lineText <;> simp

theorem branch_stacked_iff (m : Measure) (p : LayoutParams) (x y : ℚ) (e : Entry) :
    (processEntry m p x y e).branch = Branch.stacked ↔
      doStack p.forceStackDefault e.stackedFlag (hasSpace e.lineText) = true := by
  rw [processEntry_branch]
  rcases hds : doStack p.forceStackDefault e.stackedFlag (hasSpace e.lineText) <;>
    rcases hhs : hasSpace e.lineText <;> simp

theorem hasSpace_iff (s : List Char) :
    hasSpace s = true ↔ (splitFirstSpace s).2 ≠ [] := by
  unfold hasSpace
  cases h : (splitFirstSpace s).2 <;> simp [h]

theorem drawLoop_length (m : Measure) (p : LayoutParams) (x : ℚ) :
    ∀ (y : ℚ) (es : List Entry), (drawLoop m p x y es).1.length = es.length := by
  intro y es
  induction es generalizing y with
  | nil => rfl
  | cons e es ih => simp [drawLoop, ih]

/- ## Claims -/

/-- Claim C1: for every entry processed by `draw_block_stacked_on_space`,
the placement decision satisfies: with an explicit stacked flag,
`do_stack = stacked AND has_space`; without one,
`do_stack = force_stack_default AND has_space`; `do_stack` is false whenever
`has_space` is false; and `force_stack_default` influences the decision only
for entries lacking an explicit flag. -/
theorem C1_placement_decision (m : Measure) (p : LayoutParams) (x y : ℚ) (e : Entry) :
    ((processEntry m p x y e).branch = Branch.stacked ↔
      doStack p.forceStackDefault e.stackedFlag (hasSpace e.lineText) = true) ∧
    (∀ b, e.stackedFlag = some b →
      doStack p.forceStackDefault e.stackedFlag (hasSpace e.lineText) =
        (b && hasSpace e.lineText)) ∧
    (e.stackedFlag = none →
      doStack p.forceStackDefault e.stackedFlag (hasSpace e.lineText) =
        (p.forceStackDefault && hasSpace e.lineText)) ∧
    (hasSpace e.lineText = false →
      doStack p.forceStackDefault e.stackedFlag (hasSpace e.lineText) = false) ∧
    (∀ (b d d' hs : Bool), doStack d (some b) hs = doStack d' (some b) hs) := by
  refine ⟨branch_stacked_iff m p x y e, ?_, ?_, ?_, ?_⟩
  · intro b hb; rw [hb]; rfl
  · intro hb; rw [hb]; rfl
  · intro hb; rw [hb]; exact doStack_of_not_hasSpace _ _
  · intro b d d' hs; rfl

/-- Witness for C1 at the entry `NS 998375` with explicit `stacked: false`
under `force_stack_default = true`. -/
theorem C1_placement_decision_witness :
    doStack true (Entry.dict (some ("NS 998375".toList)) (some false)).stackedFlag
        (hasSpace (Entry.dict (some ("NS 998375".toList)) (some false)).lineText) =
      (false && hasSpace (Entry.dict (some ("NS 998375".toList)) (some false)).lineText) :=
  (C1_placement_decision (tightMeasure 20 30) ⟨20, 0, true, 3/10⟩ 500 5
      (Entry.dict (some ("NS 998375".toList)) (some false))).2.1 false rfl

/-- Claim C3: in the stacked branch, `top` is drawn at `(x, y)`, `bottom` at
`(x, y + line_height + inner_stack_gap)`, the cursor advances by exactly
`2 * line_height + inner_stack_gap + block_spacing`, and the result carries
the two independently measured boxes; scenario `NS 999286` stacked, line
height 30, inner gap 0, block spacing 20, origin `(500, 5)`: top box origin
`(500, 5)`, bottom box origin `(500, 35)`, next cursor y is 85. -/
theorem C3_stacked_branch (m : Measure) (p : LayoutParams) (x y : ℚ) (e : Entry)
    (h : (processEntry m p x y e).branch = Branch.stacked) :
    (processEntry m p x y e).bboxTop = m.textbbox x y (splitFirstSpace e.lineText).1 ∧
    (processEntry m p x y e).emittedBottom =
      m.textbbox x (y + m.fontSize + p.innerStackGap) (splitFirstSpace e.lineText).2 ∧
    (processEntry m p x y e).newY =
      y + m.fontSize * 2 + p.innerStackGap + p.blockSpacing ∧
    ((processEntry (tightMeasure 20 30) ⟨20, 0, false, 3/10⟩ 500 5
        (Entry.dict (some ("NS 999286".toList)) (some true))).bboxTop.x0 = 500 ∧
     (processEntry (tightMeasure 20 30) ⟨20, 0, false, 3/10⟩ 500 5
        (Entry.dict (some ("NS 999286".toList)) (some true))).bboxTop.y0 = 5 ∧
     (processEntry (tightMeasure 20 30) ⟨20, 0, false, 3/10⟩ 500 5
        (Entry.dict (some ("NS 999286".toList)) (some true))).emittedBottom.x0 = 500 ∧
     (processEntry (tightMeasure 20 30) ⟨20, 0, false, 3/10⟩ 500 5
        (Entry.dict (some ("NS 999286".toList)) (some true))).emittedBottom.y0 = 35 ∧
     (processEntry (tightMeasure 20 30) ⟨20, 0, false, 3/10⟩ 500 5
        (Entry.dict (some ("NS 999286".toList)) (some true))).newY = 85) := by
  rw [processEntry_stacked_eq m p x y e ((branch_stacked_iff m p x y e).mp h)]
  refine ⟨rfl, rfl, rfl, ?_, ?_, ?_, ?_, ?_⟩ <;>
    · rw [processEntry_stacked_eq _ _ _ _ _ (by decide)]
      norm_num [tightMeasure]

/-- Witness for C3 at the scenario entry `NS 999286`. -/
theorem C3_stacked_branch_witness :
    (processEntry (tightMeasure 20 30) ⟨20, 0, false, 3/10⟩ 500 5
        (Entry.dict (some ("NS 999286".toList)) (some true))).newY = 85 :=
  (C3_stacked_branch (tightMeasure 20 30) ⟨20, 0, false, 3/10⟩ 500 5
      (Entry.dict (some ("NS 999286".toList)) (some true)) (by decide)).2.2.2.2.2.2.2

/-- Claim C5: for every entry with `has_space = false`, the result is
`(text, bbox, bbox)` with the two boxes identical, regardless of the stacked
flag and of `force_stack_default`; the whole string is drawn as one line at
the current cursor position; in particular the entry `SOLO` is emitted as
`(text, bbox, bbox)` whatever its flag. -/
theorem C5_unsplit_single (m : Measure) (p : LayoutParams) (x y : ℚ) (e : Entry)
    (h : hasSpace e.lineText = false) :
    (processEntry m p x y e).bboxTop = m.textbbox x y e.lineText ∧
    (processEntry m p x y e).emittedBottom = (processEntry m p x y e).bboxTop ∧
    (processEntry m p x y e).branch = Branch.single ∧
    (processEntry m p x y e).newY = y + m.fontSize + p.blockSpacing ∧
    (∀ (fl : Option Bool) (d : Bool),
      (processEntry m
          { blockSpacing := p.blockSpacing, innerStackGap := p.innerStackGap,
            forceStackDefault := d, inlineGapFactor := p.inlineGapFactor } x y
          (Entry.dict (some ("SOLO".toList)) fl)).emittedBottom =
        (processEntry m
          { blockSpacing := p.blockSpacing, innerStackGap := p.innerStackGap,
            forceStackDefault := d, inlineGapFactor := p.inlineGapFactor } x y
          (Entry.dict (some ("SOLO".toList)) fl)).bboxTop) := by
  rw [processEntry_single_eq m p x y e h]
  refine ⟨rfl, rfl, rfl, rfl, ?_⟩
  intro fl d
  rw [processEntry_single_eq _ _ _ _ _
    (show hasSpace (Entry.dict (some ("SOLO".toList)) fl).lineText = false from
      (by decide : hasSpace ("SOLO".toList) = false))]

/-- Witness for C5 at the entry `SOLO` with explicit `stacked: true`. -/
theorem C5_unsplit_single_witness :
    (processEntry (tightMeasure 20 30) ⟨20, 0, true, 3/10⟩ 500 5
        (Entry.dict (some ("SOLO".toList)) (some true))).emittedBottom =
      (processEntry (tightMeasure 20 30) ⟨20, 0, true, 3/10⟩ 500 5
        (Entry.dict (some ("SOLO".toList)) (some true))).bboxTop :=
  (C5_unsplit_single (tightMeasure 20 30) ⟨20, 0, true, 3/10⟩ 500 5
      (Entry.dict (some ("SOLO".toList)) (some true)) (by decide)).2.1

/-- Claim C10: a dict entry lacking a `value` key is laid out as the empty
string: it takes the unsplit branch regardless of its stacked flag, emits
`("", bbox, bbox)` with both boxes equal, still advances the cursor by
`line_height + block_spacing`, and produces exactly one result tuple. -/
theorem C10_missing_value_key (m : Measure) (p : LayoutParams) (x y : ℚ) (fl : Option Bool) :
    (processEntry m p x y (Entry.dict none fl)).lineText = [] ∧
    (processEntry m p x y (Entry.dict none fl)).branch = Branch.single ∧
    (processEntry m p x y (Entry.dict none fl)).bboxTop = m.textbbox x y [] ∧
    (processEntry m p x y (Entry.dict none fl)).emittedBottom =
      (processEntry m p x y (Entry.dict none fl)).bboxTop ∧
    (processEntry m p x y (Entry.dict none fl)).newY = y + m.fontSize + p.blockSpacing ∧
    (draw_block_stacked_on_space m p (x, y) [Entry.dict none fl]).length = 1 := by
  rw [processEntry_single_eq m p x y (Entry.dict none fl) rfl]
  exact ⟨rfl, rfl, rfl, rfl, rfl, rfl⟩

/-- Claim C7: in one pass, with nonnegative `block_spacing` and
`inner_stack_gap` and positive line height, the cursor y strictly increases
after every entry, in every branch, so consecutive entries' drawing origins
are strictly ordered top to bottom. -/
theorem C7_cursor_monotone (m : Measure) (p : LayoutParams) (x y : ℚ) (es : List Entry)
    (hfs : 0 < m.fontSize) (hinner : 0 ≤ p.innerStackGap) (hblock : 0 ≤ p.blockSpacing) :
    (∀ (y0 : ℚ) (e : Entry), y0 < (processEntry m p x y0 e).newY) ∧
    List.Chain' (· < ·) (entryOrigins m p x y es) := by
  have hfs' : (0 : ℚ) < (m.fontSize : ℚ) := by exact_mod_cast hfs
  have hinner' : (0 : ℚ) ≤ (p.innerStackGap : ℚ) := by exact_mod_cast hinner
  have hblock' : (0 : ℚ) ≤ (p.blockSpacing : ℚ) := by exact_mod_cast hblock
  have hstep : ∀ (y0 : ℚ) (e : Entry), y0 < (processEntry m p x y0 e).newY := by
    intro y0 e
    by_cases hds : doStack p.forceStackDefault e.stackedFlag (hasSpace e.lineText) = true
    · rw [processEntry_stacked_eq m p x y0 e hds]
      dsimp only
      linarith
    · by_cases hhs : hasSpace e.lineText = true
      · rw [processEntry_inline_eq m p x y0 e (by simpa using hds) hhs]
        dsimp only
        linarith
      · rw [processEntry_single_eq m p x y0 e (by simpa using hhs)]
        dsimp only
        linarith
  refine ⟨hstep, ?_⟩
  induction es generalizing y with
  | nil => simp [entryOrigins]
  | cons e es ih =>
    cases es with
    | nil => simp [entryOrigins]
    | cons e' es' =>
      have h1 := ih (processEntry m p x y e).newY
      simp only [entryOrigins] at h1 ⊢
      exact List.chain'_cons.mpr ⟨hstep y e, h1⟩

/-- Witness for C7: a two-entry pass (one stacked, one unsplit) with font
size 30, inner gap 0, block spacing 20 starting at y = 5. -/
theorem C7_cursor_monotone_witness :
    List.Chain' (fun a b => a < b)
      (entryOrigins (tightMeasure 20 30) ⟨20, 0, true, 3/10⟩ 500 5
        [Entry.dict (some ("NS 999286".toList)) (some true), Entry.str ("SOLO".toList)]) :=
  (C7_cursor_monotone (tightMeasure 20 30) ⟨20, 0, true, 3/10⟩ 500 5
      [Entry.dict (some ("NS 999286".toList)) (some true), Entry.str ("SOLO".toList)]
      (by norm_num [tightMeasure]) (by norm_num) (by norm_num)).2

/-- Claim C2 counterexample: the claim says the inline gap is
`round(width(top) * inline_gap_factor)`. The source computes
`int(prefix_width * inline_gap_factor)`, which truncates. With a top token
of measured width 43 and `inline_gap_factor = 0.5` the product is 21.5: the
code's gap is 21 and the bottom token is drawn with its box's left edge at
`500 + 43 + 21 = 564`, while the claimed formula yields 22 and a left edge
of 565. -/
theorem C2_inline_gap_counterexample :
    (processEntry (tightMeasure (43/2) 28) ⟨20, 0, false, 1/2⟩ 500 5
        (Entry.dict (some ("NS 998375".toList)) (some false))).branch = Branch.inline ∧
    (processEntry (tightMeasure (43/2) 28) ⟨20, 0, false, 1/2⟩ 500 5
        (Entry.dict (some ("NS 998375".toList)) (some false))).bboxBottomRaw.x0 = 564 ∧
    500 + (tightMeasure (43/2) 28).textlength (splitFirstSpace ("NS 998375".toList)).1 +
        ((round ((tightMeasure (43/2) 28).textlength (splitFirstSpace ("NS 998375".toList)).1 *
          (1/2 : ℚ)) : ℤ) : ℚ) = 565 ∧
    (564 : ℚ) ≠ 565 := by
  refine ⟨by decide, ?_, ?_, by norm_num⟩
  · rw [processEntry_inline_eq _ _ _ _ _ (by decide) (by decide)]
    rw [show (splitFirstSpace (Entry.dict (some ("NS 998375".toList)) (some false)).lineText).1 =
      ("NS".toList) from rfl]
    norm_num [tightMeasure, pyTrunc]
  · rw [show (splitFirstSpace ("NS 998375".toList)).1 = ("NS".toList) from rfl]
    norm_num [tightMeasure, round_eq]

/-- Claim C2 (amended): for every entry taking the inline branch, the gap is
the int-truncation (floor, for the nonnegative widths that occur) of
`width(top) * inline_gap_factor` — not the rounding — and the bottom part is
drawn at `x + width(top) + gap`, so under a tight measure the bottom box's
left edge is the top box's right edge plus that gap; the scenario stands:
top width 40, factor 0.3, x = 500 gives gap 12 and left edge 552. -/
theorem C2_inline_gap_amended (m : Measure) (p : LayoutParams) (x y : ℚ) (e : Entry)
    (h : (processEntry m p x y e).branch = Branch.inline) :
    (processEntry m p x y e).bboxBottomRaw =
      m.textbbox
        (x + m.textlength (splitFirstSpace e.lineText).1 +
          pyTrunc (m.textlength (splitFirstSpace e.lineText).1 * p.inlineGapFactor)) y
        (splitFirstSpace e.lineText).2 ∧
    (∀ (cw : ℚ) (fs : ℤ) (x' y' : ℚ) (e' : Entry),
      (processEntry (tightMeasure cw fs) p x' y' e').branch = Branch.inline →
      (processEntry (tightMeasure cw fs) p x' y' e').bboxBottomRaw.x0 =
        (processEntry (tightMeasure cw fs) p x' y' e').bboxTop.x1 +
          pyTrunc ((tightMeasure cw fs).textlength (splitFirstSpace e'.lineText).1 *
            p.inlineGapFactor)) ∧
    ((processEntry (tightMeasure 20 30) ⟨20, 0, false, 3/10⟩ 500 5
        (Entry.dict (some ("NS 998375".toList)) (some false))).bboxBottomRaw.x0 = 552 ∧
     pyTrunc ((tightMeasure 20 30).textlength (splitFirstSpace ("NS 998375".toList)).1 *
       (3/10 : ℚ)) = 12) := by
  obtain ⟨hds, hhs⟩ := (branch_inline_iff m p x y e).mp h
  refine ⟨?_, ?_, ?_, ?_⟩
  · rw [processEntry_inline_eq m p x y e hds hhs]
  · intro cw fs x' y' e' h'
    obtain ⟨hds', hhs'⟩ := (branch_inline_iff _ p x' y' e').mp h'
    rw [processEntry_inline_eq _ p x' y' e' hds' hhs']
    dsimp only [tightMeasure]
  · rw [processEntry_inline_eq _ _ _ _ _ (by decide) (by decide)]
    rw [show (splitFirstSpace (Entry.dict (some ("NS 998375".toList)) (some false)).lineText).1 =
      ("NS".toList) from rfl]
    norm_num [tightMeasure, pyTrunc]
  · rw [show (splitFirstSpace ("NS 998375".toList)).1 = ("NS".toList) from rfl]
    norm_num [tightMeasure, pyTrunc]

/-- Witness for C2 (amended) at the scenario entry `NS 998375` with
`stacked: false`, character width 20 and factor 0.3. -/
theorem C2_inline_gap_amended_witness :
    (processEntry (tightMeasure 20 30) ⟨20, 0, false, 3/10⟩ 500 5
        (Entry.dict (some ("NS 998375".toList)) (some false))).bboxBottomRaw.x0 = 552 :=
  (C2_inline_gap_amended (tightMeasure 20 30) ⟨20, 0, false, 3/10⟩ 500 5
      (Entry.dict (some ("NS 998375".toList)) (some false)) (by decide)).2.2.1

/-- Claim C4: in the inline branch the second emitted box is exactly
`(bbox_top.x0, bbox_top.y0, bbox_bottom.x1, bbox_bottom.y1)` — left/top from
the top token's measured box, right/bottom from the bottom token's — and
there are measures under which this tuple is not the true geometric union of
the two boxes. -/
theorem C4_inline_combined_box (m : Measure) (p : LayoutParams) (x y : ℚ) (e : Entry)
    (h : (processEntry m p x y e).branch = Branch.inline) :
    (processEntry m p x y e).emittedBottom =
      ⟨(processEntry m p x y e).bboxTop.x0, (processEntry m p x y e).bboxTop.y0,
       (processEntry m p x y e).bboxBottomRaw.x1, (processEntry m p x y e).bboxBottomRaw.y1⟩ ∧
    (∃ (m' : Measure) (p' : LayoutParams) (x' y' : ℚ) (e' : Entry),
      (processEntry m' p' x' y' e').branch = Branch.inline ∧
      (processEntry m' p' x' y' e').emittedBottom ≠
        bboxUnion (processEntry m' p' x' y' e').bboxTop
          (processEntry m' p' x' y' e').bboxBottomRaw) := by
  obtain ⟨hds, hhs⟩ := (branch_inline_iff m p x y e).mp h
  constructor
  · rw [processEntry_inline_eq m p x y e hds hhs]
  · refine ⟨unevenMeasure, ⟨20, 0, false, 1/2⟩, 0, 0,
      Entry.dict (some ("998375 NS".toList)) (some false), by decide, ?_⟩
    rw [processEntry_inline_eq _ _ _ _ _ (by decide) (by decide)]
    rw [show (splitFirstSpace (Entry.dict (some ("998375 NS".toList)) (some false)).lineText).1 =
      ("998375".toList) from rfl]
    rw [show (splitFirstSpace (Entry.dict (some ("998375 NS".toList)) (some false)).lineText).2 =
      ("NS".toList) from rfl]
    norm_num [unevenMeasure, bboxUnion, pyTrunc, BBox.mk.injEq]

/-- Witness for C4 at the entry `NS 998375` with `stacked: false` under a
tight measure. -/
theorem C4_inline_combined_box_witness :
    (processEntry (tightMeasure 20 30) ⟨20, 0, false, 3/10⟩ 500 5
        (Entry.dict (some ("NS 998375".toList)) (some false))).emittedBottom =
      ⟨(processEntry (tightMeasure 20 30) ⟨20, 0, false, 3/10⟩ 500 5
          (Entry.dict (some ("NS 998375".toList)) (some false))).bboxTop.x0,
       (processEntry (tightMeasure 20 30) ⟨20, 0, false, 3/10⟩ 500 5
          (Entry.dict (some ("NS 998375".toList)) (some false))).bboxTop.y0,
       (processEntry (tightMeasure 20 30) ⟨20, 0, false, 3/10⟩ 500 5
          (Entry.dict (some ("NS 998375".toList)) (some false))).bboxBottomRaw.x1,
       (processEntry (tightMeasure 20 30) ⟨20, 0, false, 3/10⟩ 500 5
          (Entry.dict (some ("NS 998375".toList)) (some false))).bboxBottomRaw.y1⟩ :=
  (C4_inline_combined_box (tightMeasure 20 30) ⟨20, 0, false, 3/10⟩ 500 5
      (Entry.dict (some ("NS 998375".toList)) (some false)) (by decide)).1

/-- Claim C6 counterexample: the split is on the literal space character
only, not on any whitespace. The text `a<TAB>b` contains a whitespace
character (the tab), yet the code does not split it: `bottom` is empty and
`has_space` is false. And `a<SPACE>` contains whitespace yet also yields an
empty `bottom`, refuting `bottom empty iff no whitespace in the text`. -/
theorem C6_split_counterexample :
    ((∃ c, c ∈ ("a\tb".toList) ∧ c.isWhitespace = true) ∧
      splitFirstSpace ("a\tb".toList) = ("a\tb".toList, []) ∧
      hasSpace ("a\tb".toList) = false) ∧
    ((∃ c, c ∈ ("a ".toList) ∧ c.isWhitespace = true) ∧
      splitFirstSpace ("a ".toList) = (("a".toList), []) ∧
      hasSpace ("a ".toList) = false) := by
  decide

/-- Claim C6 (amended): the split is performed at the first space character
(U+0020) of the text, with everything after it (including other whitespace)
kept in `bottom`; when the text contains no space the split is
`(text, "")`; `bottom` (and hence `has_space`, defined as `bottom`
non-empty) can also be empty when the first space is the final character. -/
theorem C6_split_amended (s : List Char) :
    ' ' ∉ (splitFirstSpace s).1 ∧
    (' ' ∈ s → s = (splitFirstSpace s).1 ++ ' ' :: (splitFirstSpace s).2) ∧
    (' ' ∉ s → splitFirstSpace s = (s, [])) ∧
    (hasSpace s = true ↔ (splitFirstSpace s).2 ≠ []) := by
  refine ⟨?_, ?_, ?_, hasSpace_iff s⟩
  · induction s with
    | nil => simp [splitFirstSpace]
    | cons c rest ih =>
      by_cases hc : c = ' '
      · subst hc; simp [splitFirstSpace]
      · simp only [splitFirstSpace, if_neg hc, List.mem_cons, not_or]
        exact ⟨fun h => hc h.symm, ih⟩
  · induction s with
    | nil => intro h; cases h
    | cons c rest ih =>
      intro hmem
      by_cases hc : c = ' '
      · subst hc; simp [splitFirstSpace]
      · have hrest : ' ' ∈ rest := by
          rcases List.mem_cons.mp hmem with h | h
          · exact absurd h.symm hc
          · exact h
        simp only [splitFirstSpace, if_neg hc, List.cons_append]
        exact congrArg (c :: ·) (ih hrest)
  · induction s with
    | nil => intro _; rfl
    | cons c rest ih =>
      intro hmem
      have hc : ¬c = ' ' := by
        intro h; subst h; exact hmem (List.mem_cons_self _ _)
      have hrest : ' ' ∉ rest := fun h => hmem (List.mem_cons_of_mem _ h)
      simp only [splitFirstSpace, if_neg hc, ih hrest]

/-- Witness for C6 (amended): at `NS 998375` the text splits around its
first space; at `SOLO` (no space) it does not split. -/
theorem C6_split_amended_witness :
    ("NS 998375".toList) =
      (splitFirstSpace ("NS 998375".toList)).1 ++
        ' ' :: (splitFirstSpace ("NS 998375".toList)).2 ∧
    splitFirstSpace ("SOLO".toList) = (("SOLO".toList), []) :=
  ⟨(C6_split_amended ("NS 998375".toList)).2.1 (by decide),
   (C6_split_amended ("SOLO".toList)).2.2.1 (by decide)⟩

/-- Claim C8 counterexample: the claim says the auto padding is
`max(2, round(font_size * 0.1))`, giving 3 for font size 28. The source
computes `max(2, int(font_size * 0.1))`, truncating 2.8 to 2: with the
default sizes 64 and 28 the paddings are (6, 2), not (6, 3). -/
theorem C8_padding_counterexample :
    exportPaddings 64 28 none = (6, 2) ∧
    max 2 (round ((28 : ℚ) * (1/10))) = 3 ∧
    (exportPaddings 64 28 none).2 ≠ max 2 (round ((28 : ℚ) * (1/10))) := by
  have h1 : exportPaddings 64 28 none = (6, 2) := by
    norm_num [exportPaddings, autoPadding, pyTrunc]
  have h2 : max 2 (round ((28 : ℚ) * (1/10))) = 3 := by
    norm_num [round_eq]
  refine ⟨h1, h2, ?_⟩
  rw [h1, h2]
  norm_num

/-- Claim C8 (amended): with outlines enabled and no fixed override, the
padding is `max(2, int(font_size * 0.1))` — truncation, not rounding —
independently for the side and end fonts (for nonnegative sizes this is
`max 2 (floor (font_size / 10))`, so size 28 gives 2 and size 64 gives 6);
with a fixed override both paddings equal the override. -/
theorem C8_padding_amended (sfs efs pd : ℤ) (hside : 0 ≤ sfs) (hend : 0 ≤ efs) :
    exportPaddings sfs efs none =
      (max 2 ⌊(sfs : ℚ) / 10⌋, max 2 ⌊(efs : ℚ) / 10⌋) ∧
    exportPaddings sfs efs (some pd) = (pd, pd) ∧
    exportPaddings 64 28 none = (6, 2) := by
  have key : ∀ fs : ℤ, 0 ≤ fs → autoPadding fs = max 2 ⌊(fs : ℚ) / 10⌋ := by
    intro fs hfs
    unfold autoPadding pyTrunc
    rw [if_pos]
    · congr 2
      ring
    · have : (0 : ℚ) ≤ (fs : ℚ) := by exact_mod_cast hfs
      positivity
  refine ⟨?_, rfl, ?_⟩
  · show (autoPadding sfs, autoPadding efs) = _
    rw [key sfs hside, key efs hend]
  · norm_num [exportPaddings, autoPadding, pyTrunc]

/-- Witness for C8 (amended) at the default font sizes 64 and 28 and
override 5. -/
theorem C8_padding_amended_witness :
    exportPaddings 64 28 (some 5) = (5, 5) :=
  (C8_padding_amended 64 28 5 (by norm_num) (by norm_num)).2.1

/-- Claim C9 counterexample: a non-string, non-dict entry is coerced with
`str(...)` and then processed like any string, NOT forced to an unsplit
single line: the Python value `[1, 2]` has string form `[1, 2]`, which
contains a space, so under `force_stack_default = True` it is rendered
stacked — its branch is not the unsplit one and its two emitted boxes
differ. -/
theorem C9_coercion_counterexample :
    (processEntry (tightMeasure 20 30) ⟨20, 0, true, 3/10⟩ 500 5
        (Entry.other ("[1, 2]".toList))).branch = Branch.stacked ∧
    (processEntry (tightMeasure 20 30) ⟨20, 0, true, 3/10⟩ 500 5
        (Entry.other ("[1, 2]".toList))).branch ≠ Branch.single ∧
    (processEntry (tightMeasure 20 30) ⟨20, 0, true, 3/10⟩ 500 5
        (Entry.other ("[1, 2]".toList))).emittedBottom ≠
      (processEntry (tightMeasure 20 30) ⟨20, 0, true, 3/10⟩ 500 5
        (Entry.other ("[1, 2]".toList))).bboxTop := by
  refine ⟨by decide, by decide, ?_⟩
  rw [processEntry_stacked_eq _ _ _ _ _ (by decide)]
  dsimp only [tightMeasure]
  intro hcontra
  have := congrArg BBox.y0 hcontra
  norm_num at this

/-- Claim C9 (amended): an entry that is neither a string nor a dict is
coerced to its string form and then processed exactly as the corresponding
string entry (stacked flag absent, so `force_stack_default` applies); it is
rendered as an unsplit single line exactly when its string form has no
splittable second part (in particular an entry whose coerced string has one
is never rendered unsplit); and every entry is processed through exactly one
of the three branches, producing exactly one result tuple, never raising. -/
theorem C9_coercion_amended (m : Measure) (p : LayoutParams) (x y : ℚ) (s : List Char)
    (st : ℚ × ℚ) (es : List Entry) :
    processEntry m p x y (Entry.other s) = processEntry m p x y (Entry.str s) ∧
    ((processEntry m p x y (Entry.other s)).branch = Branch.single ↔
      hasSpace s = false) ∧
    (hasSpace s = false →
      (processEntry m p x y (Entry.other s)).branch = Branch.single ∧
      (processEntry m p x y (Entry.other s)).emittedBottom =
        (processEntry m p x y (Entry.other s)).bboxTop) ∧
    ((processEntry m p x y (Entry.other s)).branch = Branch.stacked ∨
      (processEntry m p x y (Entry.other s)).branch = Branch.inline ∨
      (processEntry m p x y (Entry.other s)).branch = Branch.single) ∧
    (draw_block_stacked_on_space m p st es).length = es.length := by
  refine ⟨rfl, ?_, ?_, ?_, drawLoop_length m p st.1 st.2 es⟩
  · rw [processEntry_branch]
    simp only [Entry.lineText, Entry.stackedFlag]
    by_cases hhs : hasSpace s = true
    · rcases hd : doStack p.forceStackDefault none true with _ | _ <;>
        simp [hhs, hd]
    · rw [Bool.not_eq_true] at hhs
      simp [hhs, doStack_of_not_hasSpace]
  · intro h
    rw [processEntry_single_eq m p x y (Entry.other s) h]
    exact ⟨rfl, rfl⟩
  · cases hb : (processEntry m p x y (Entry.other s)).branch
    · exact Or.inl rfl
    · exact Or.inr (Or.inl rfl)
    · exact Or.inr (Or.inr rfl)

/-- Witness for C9 (amended): the coerced value `3.5` (string form without a
space) is rendered unsplit. -/
theorem C9_coercion_amended_witness :
    (processEntry (tightMeasure 20 30) ⟨20, 0, true, 3/10⟩ 500 5
        (Entry.other ("3.5".toList))).branch = Branch.single ∧
    (processEntry (tightMeasure 20 30) ⟨20, 0, true, 3/10⟩ 500 5
        (Entry.other ("3.5".toList))).emittedBottom =
      (processEntry (tightMeasure 20 30) ⟨20, 0, true, 3/10⟩ 500 5
        (Entry.other ("3.5".toList))).bboxTop :=
  (C9_coercion_amended (tightMeasure 20 30) ⟨20, 0, true, 3/10⟩ 500 5 ("3.5".toList)
      (500, 5) []).2.2.1 (by decide)

end Repmark
